import Mathlib

/-!
# Verification of `thisless`

A shallow embedding of the `thisless` JavaScript library:
`toBlankObj` (the Flattener), `isPlainObject`, `thisless` (the
Normalizer), `selfless` (the Deferred Binder), and the
`hackObjectTypePrototype` integration patch from `statetree.js`.

JavaScript objects are modelled as a prototype classification
(`Proto`) together with an ordered list of own properties, each a
name paired with a full property descriptor.  Property values are
modelled by `JsVal`.  A small address-based heap model is used for
the frame/no-mutation property of `toBlankObj`.
-/

namespace Thisless

/-- Classification of an object's direct prototype, as compared by
`===` in `isPlainObject`: `Object.prototype`, `null`, or some other
(exotic) prototype object such as a class prototype, distinguished
by a tag. -/
inductive Proto where
  | pnull
  | objectProto
  | other (tag : Nat)
deriving DecidableEq, Repr

/-- A full JavaScript property descriptor: a data value and/or
accessor pair, plus the writable / enumerable / configurable flags.
`V` is the type of property values. -/
structure Descr (V : Type) where
  value : Option V := none
  get : Option V := none
  set : Option V := none
  writable : Bool := false
  enumerable : Bool := false
  configurable : Bool := false
deriving DecidableEq, Repr

/-- JavaScript values, to the granularity the library inspects them:
`undefined`, `null`, primitives (abstracted to a tag), objects
(`typeof v === 'object'`, prototype classification plus own
properties in insertion order), and functions/classes
(`typeof v === 'function'`, identity tag plus own properties,
among which a class keeps its `prototype` object). -/
inductive JsVal where
  | undefV
  | nullV
  | prim (tag : Nat)
  | objV (proto : Proto) (props : List (String × Descr JsVal))
  | funcV (tag : Nat) (props : List (String × Descr JsVal))

/-- The error surfaced by the host object system for the operations the
library performs on invalid inputs (e.g. `Object.getOwnPropertyNames`
on `undefined`, or `new` on a non-constructible value). -/
inductive JsErr where
  | typeError
deriving DecidableEq, Repr

/-- Own-property list of an object: names in insertion order, paired
with their descriptors. -/
abbrev PropList := List (String × Descr JsVal)

/-- Source: `const isUndefined = x => x === undefined`. -/
def isUndefined : JsVal → Bool
  | .undefV => true
  | _ => false

/-- Source: `isPlainObject(value)` — false for `null` and for any value
with `typeof value !== 'object'` (primitives, `undefined`, functions);
otherwise true iff the direct prototype is `Object.prototype` or `null`. -/
def isPlainObject : JsVal → Bool
  | .objV proto _ => proto = Proto.objectProto || proto = Proto.pnull
  | _ => false

/-- Source: the frozen `NATIVE_PROPS_NON_ENUMERABLE` array, verbatim. -/
def NATIVE_PROPS_NON_ENUMERABLE : List String :=
  [ "__defineGetter__"
  , "__defineSetter__"
  , "__proto__"
  , "__lookupGetter__"
  , "__lookupSetter__"
  , "hasOwnProperty"
  , "propertyIsEnumerable"
  , "toLocaleString"
  , "isPrototypeOf"
  , "toString"
  , "constructor"
  , "prototype"
  , "valueOf"
  , "arguments"
  , "caller"
  , "callee" ]

/-- Source: `nameIsNotNative = name => !NATIVE_PROPS_NON_ENUMERABLE.includes(name)`. -/
def nameIsNotNative (name : String) : Bool :=
  !(NATIVE_PROPS_NON_ENUMERABLE.contains name)

/-- `Object.getOwnPropertyNames(obj)` on the own-property list:
the names in insertion order. -/
def getOwnPropertyNames (props : PropList) : List String :=
  props.map Prod.fst

/-- `Object.getOwnPropertyDescriptor(obj, key)`: the descriptor of
the own property named `key`, if any.  (In JavaScript this returns a
fresh descriptor record each time; here descriptors are values, so a
later flag change never aliases back into `props` by construction.) -/
def getOwnPropertyDescriptor : PropList → String → Option (Descr JsVal)
  | [], _ => none
  | (k, d) :: rest, name => if k = name then some d else getOwnPropertyDescriptor rest name

/-- Source: `getOwnPrototypeNames = obj =>
Object.getOwnPropertyNames(obj).filter(nameIsNotNative)`. -/
def getOwnPrototypeNames (props : PropList) : List String :=
  (getOwnPropertyNames props).filter nameIsNotNative

/-- Replace the descriptor of every entry named `key` (an own-property
list holds at most one) by `d`, keeping the property's position. -/
def replaceProp : PropList → String → Descr JsVal → PropList
  | [], _, _ => []
  | (k1, d1) :: rest, key, d =>
    if k1 = key then (key, d) :: replaceProp rest key d
    else (k1, d1) :: replaceProp rest key d

/-- `Object.defineProperty(obj, key, d)` on the own-property list:
replace the descriptor of `key` in place if the property exists,
otherwise append the new property at the end. -/
def defineProperty (props : PropList) (key : String) (d : Descr JsVal) : PropList :=
  if (getOwnPropertyNames props).contains key then
    replaceProp props key d
  else
    props ++ [(key, d)]

/-- One iteration of the `forEach` body of `toBlankObj`: read the
descriptor of `key` from the source property list, set its
`enumerable` flag to true, and define it on the accumulator.  The
`none` branch is unreachable in `toBlankObj` because every `key`
comes from the source's own names. -/
def toBlankObjStep (src : PropList) (acc : PropList) (key : String) : PropList :=
  match getOwnPropertyDescriptor src key with
  | some d => defineProperty acc key { d with enumerable := true }
  | none => acc

/-- The property list built by `toBlankObj` from the own properties of
its argument: fold the `forEach` body over the filtered names,
starting from the empty object `Object.create(null)`. -/
def toBlankObjProps (src : PropList) : PropList :=
  (getOwnPrototypeNames src).foldl (toBlankObjStep src) []

/-- The own properties a value presents to `Object.getOwnPropertyNames`
and `Object.getOwnPropertyDescriptor`: objects and functions expose
their own-property list; number/boolean primitives coerce to a fresh
wrapper with no own string-keyed properties; `undefined` and `null`
make those operations fail with a `TypeError`. -/
def ownPropsOf : JsVal → Except JsErr PropList
  | .objV _ ps => .ok ps
  | .funcV _ ps => .ok ps
  | .prim _ => .ok []
  | .undefV => .error .typeError
  | .nullV => .error .typeError

/-- Source: `toBlankObj(obj)` — create a prototype-less object, then
for each non-native own property name of `obj`, define the property on
the new object with its original descriptor made enumerable. -/
def toBlankObj (v : JsVal) : Except JsErr JsVal :=
  (ownPropsOf v).map fun ps => .objV .pnull (toBlankObjProps ps)

/-- A data-property read `v.name` restricted to the fragment the
library exercises: the value of the own data property `name`, or
`undefined` when absent.  (`thisless` only reads `.prototype`, which on
every ordinary function or class is an own data property; the modelled
prototype chains contribute no `prototype` member.) -/
def readProp (v : JsVal) (name : String) : JsVal :=
  match v with
  | .objV _ ps | .funcV _ ps =>
    match getOwnPropertyDescriptor ps name with
    | some d => d.value.getD .undefV
    | none => .undefV
  | _ => .undefV

/-- Source: `thisless(_class)` — if `_class` is not a plain object,
flatten `_class.prototype`; otherwise return `_class` itself. -/
def thisless (v : JsVal) : Except JsErr JsVal :=
  if isPlainObject v then .ok v
  else toBlankObj (readProp v "prototype")

/-- The argument shapes of a call of `selfless`, distinguished the way
`arguments.length` distinguishes them: called with one argument, or
called with two explicit arguments (the second may be `undefined`).
The provider is a Lean-level function standing for the JavaScript
callback `fn`. -/
inductive SelflessArgs where
  | one (fn : JsVal → JsVal)
  | two (fn : JsVal → JsVal) (self : JsVal)

/-- What a call of `selfless` evaluates to: either the inner
`selflessCurry` closure, or the result of the eager branch. -/
inductive SelflessRet where
  | curried (g : JsVal → Except JsErr JsVal)
  | result (r : Except JsErr JsVal)

/-- Source: `selfless(fn, $self)` — when `arguments.length === 1`,
return the closure `selflessCurry` which on `$$self` computes
`thisless(fn($$self))`; otherwise compute `thisless(fn($self))`
immediately. -/
def selfless : SelflessArgs → SelflessRet
  | .one fn => .curried fun s => thisless (fn s)
  | .two fn self => .result (thisless (fn self))

/-- Apply the outcome of a `selfless` call to a context value: a
curried closure is invoked, an eager result is already a value. -/
def SelflessRet.resolve (r : SelflessRet) (c : JsVal) : Except JsErr JsVal :=
  match r with
  | .curried g => g c
  | .result x => x

/-- The eager branch of `selfless` with an effectful provider: the
provider receives a state `s` (modelling whatever side effects and
possible thrown errors it has) and the context value, and yields the
updated state together with either a thrown error or a class-like
value.  `selfless` calls the provider once (`const _class = fn($self)`)
and feeds the result to `thisless`; a thrown error propagates
unchanged. -/
def selflessSt {σ : Type} (prov : σ → JsVal → σ × Except JsErr JsVal)
    (s : σ) (self : JsVal) : σ × Except JsErr JsVal :=
  let (s1, r) := prov s self
  match r with
  | .error e => (s1, .error e)
  | .ok c => (s1, thisless c)

/-- Instrumentation: a provider that counts its own invocations on top
of a pure behaviour `f`. -/
def countingProvider (f : JsVal → Except JsErr JsVal) :
    Nat → JsVal → Nat × Except JsErr JsVal :=
  fun n v => (n + 1, f v)

/-- `new v`: only function values are constructible in the modelled
fragment; constructing from anything else throws a `TypeError`. -/
def construct : JsVal → Except JsErr Unit
  | .funcV _ _ => .ok ()
  | _ => .error .typeError

/-! ## Heap model

`toBlankObj` is also embedded against an explicit heap, to express
that it mutates only the freshly allocated blank object and leaves
its argument untouched (including every flag of every descriptor). -/

/-- A heap-resident object: prototype classification plus mutable
own-property list. -/
structure HObj where
  proto : Proto
  props : PropList

/-- The heap: objects addressed by their index.  `Object.create`
allocates at the end. -/
abbrev Heap := List HObj

/-- Allocate a new object, returning the grown heap and the fresh
address. -/
def alloc (h : Heap) (o : HObj) : Heap × Nat :=
  (h ++ [o], h.length)

/-- `Object.defineProperty` against the heap: update the own-property
list of the object at address `a`. -/
def definePropertyH (h : Heap) (a : Nat) (key : String) (d : Descr JsVal) : Heap :=
  match h[a]? with
  | some o => h.set a ⟨o.proto, defineProperty o.props key d⟩
  | none => h

/-- One iteration of the `forEach` body of `toBlankObj` against the
heap: read the descriptor of `key` from the source object at `a` (as
it stands at this iteration), set its `enumerable` flag on the fresh
copy `Object.getOwnPropertyDescriptor` returned, and define it on the
blank object at `b`. -/
def toBlankObjStepH (a b : Nat) (h : Heap) (key : String) : Heap :=
  match h[a]? with
  | some o =>
    match getOwnPropertyDescriptor o.props key with
    | some d => definePropertyH h b key { d with enumerable := true }
    | none => h
  | none => h

/-- Source: `toBlankObj(obj)` against the heap, for `obj` the object at
address `a`: allocate the prototype-less blank object, read the
filtered own names of `obj`, run the `forEach` loop, and return the
final heap with the blank object's address. -/
def toBlankObjH (h : Heap) (a : Nat) : Except JsErr (Heap × Nat) :=
  match h[a]? with
  | none => .error .typeError
  | some src =>
    let (h1, b) := alloc h ⟨.pnull, []⟩
    .ok ((getOwnPrototypeNames src.props).foldl (toBlankObjStepH a b) h1, b)

/-! ## Integration patch (`statetree.js`)

`hackObjectTypePrototype` mutates the shared `ObjectType` prototype of
the state-tree library: it wraps the `actions` and `views` entry
points and installs `createStore`, guarded by `'createStore' in x`.
An entry point is modelled by how many wrapper layers sit on top of
the library's original function; each wrapper body invokes the
function it captured exactly once (`actions.call(this, ...)`,
`views.call(this, ...)`). -/

/-- An `actions`/`views` entry point: the library's original function
(identified by a tag), possibly under wrapper layers installed by the
patch. -/
inductive Method where
  | orig (tag : Nat)
  | wrapped (m : Method)
deriving DecidableEq, Repr

/-- How many wrapper layers the patch has installed on an entry
point. -/
def Method.wrapLayers : Method → Nat
  | .orig _ => 0
  | .wrapped m => m.wrapLayers + 1

/-- How many times one call of the entry point invokes the library's
underlying original function: a wrapper body calls the function it
captured exactly once and adds no other call. -/
def Method.origCallsPerCall : Method → Nat
  | .orig _ => 1
  | .wrapped m => m.origCallsPerCall

/-- The mutable state of the shared `ObjectType` prototype: its two
entry points and whether `createStore` is present (`'createStore' in x`
resolves through the prototype chain to this flag). -/
structure ObjectTypeProto where
  actions : Method
  views : Method
  createStore : Bool
deriving DecidableEq, Repr

/-- Source: `hackObjectTypePrototype(x)` — if `'createStore' in x`,
return without touching anything; otherwise wrap `actions` and
`views` each in one new layer and install `createStore`. -/
def hackObjectTypePrototype (p : ObjectTypeProto) : ObjectTypeProto :=
  if p.createStore then p
  else ⟨.wrapped p.actions, .wrapped p.views, true⟩

/-- The prototype classification of a value, when it is an object. -/
def JsVal.protoClass : JsVal → Option Proto
  | .objV p _ => some p
  | _ => none

/-! ## Lemmas about property lookup and `defineProperty` -/

theorem gopd_isSome_iff (ps : PropList) (n : String) :
    (getOwnPropertyDescriptor ps n).isSome ↔ n ∈ getOwnPropertyNames ps := by
  induction ps with
  | nil => simp [getOwnPropertyDescriptor, getOwnPropertyNames]
  | cons kv rest ih =>
    obtain ⟨k, d⟩ := kv
    simp only [getOwnPropertyDescriptor, getOwnPropertyNames, List.map_cons, List.mem_cons]
    by_cases hk : k = n
    · subst hk; simp
    · simp only [if_neg hk, ih, getOwnPropertyNames]
      constructor
      · exact fun h => Or.inr h
      · rintro (h | h)
        · exact absurd h.symm hk
        · exact h

theorem gopd_append (ps qs : PropList) (n : String) :
    getOwnPropertyDescriptor (ps ++ qs) n =
      match getOwnPropertyDescriptor ps n with
      | some d => some d
      | none => getOwnPropertyDescriptor qs n := by
  induction ps with
  | nil => simp [getOwnPropertyDescriptor]
  | cons kv rest ih =>
    obtain ⟨k, d⟩ := kv
    by_cases hk : k = n
    · simp [getOwnPropertyDescriptor, hk]
    · simp [getOwnPropertyDescriptor, hk, ih]

theorem gopd_cons (k : String) (d : Descr JsVal) (rest : PropList) (n : String) :
    getOwnPropertyDescriptor ((k, d) :: rest) n =
      if k = n then some d else getOwnPropertyDescriptor rest n := rfl

theorem gopd_nil (n : String) : getOwnPropertyDescriptor [] n = none := rfl

theorem gopd_replaceProp_ne (ps : PropList) (k : String) (d : Descr JsVal) (n : String)
    (h : n ≠ k) :
    getOwnPropertyDescriptor (replaceProp ps k d) n = getOwnPropertyDescriptor ps n := by
  induction ps with
  | nil => rfl
  | cons kv rest ih =>
    obtain ⟨k1, d1⟩ := kv
    by_cases hk1 : k1 = k
    · rw [replaceProp, if_pos hk1, gopd_cons, gopd_cons,
        if_neg (fun hh => h hh.symm), if_neg (fun hh => h (hk1 ▸ hh.symm)), ih]
    · rw [replaceProp, if_neg hk1, gopd_cons, gopd_cons, ih]

theorem gopd_replaceProp_self (ps : PropList) (k : String) (d : Descr JsVal)
    (h : k ∈ getOwnPropertyNames ps) :
    getOwnPropertyDescriptor (replaceProp ps k d) k = some d := by
  induction ps with
  | nil => simp [getOwnPropertyNames] at h
  | cons kv rest ih =>
    obtain ⟨k1, d1⟩ := kv
    by_cases hk1 : k1 = k
    · rw [replaceProp, if_pos hk1, gopd_cons, if_pos rfl]
    · simp only [getOwnPropertyNames, List.map_cons, List.mem_cons] at h
      rcases h with h | h
      · exact absurd h.symm hk1
      · rw [replaceProp, if_neg hk1, gopd_cons, if_neg (fun hh => hk1 hh)]
        exact ih h

theorem gopd_defineProperty_self (ps : PropList) (k : String) (d : Descr JsVal) :
    getOwnPropertyDescriptor (defineProperty ps k d) k = some d := by
  unfold defineProperty
  by_cases hc : (getOwnPropertyNames ps).contains k
  · rw [if_pos hc]
    exact gopd_replaceProp_self ps k d (by simpa using hc)
  · rw [if_neg hc, gopd_append]
    have hmem : ¬ k ∈ getOwnPropertyNames ps := by simpa using hc
    have hnone : getOwnPropertyDescriptor ps k = none := by
      cases hcase : getOwnPropertyDescriptor ps k with
      | none => rfl
      | some d0 =>
        exact absurd ((gopd_isSome_iff ps k).mp (by simp [hcase])) hmem
    rw [hnone, gopd_cons, if_pos rfl]

theorem gopd_defineProperty_ne (ps : PropList) (k : String) (d : Descr JsVal)
    (n : String) (h : n ≠ k) :
    getOwnPropertyDescriptor (defineProperty ps k d) n =
      getOwnPropertyDescriptor ps n := by
  unfold defineProperty
  by_cases hc : (getOwnPropertyNames ps).contains k
  · rw [if_pos hc]
    exact gopd_replaceProp_ne ps k d n h
  · rw [if_neg hc, gopd_append]
    cases hcase : getOwnPropertyDescriptor ps n with
    | some d0 => simp
    | none => rw [gopd_cons, if_neg (fun hh => h hh.symm), gopd_nil]

theorem nameIsNotNative_iff (n : String) :
    nameIsNotNative n = true ↔ n ∉ NATIVE_PROPS_NON_ENUMERABLE := by
  simp [nameIsNotNative]

/-! ## Characterization of the flattening fold -/

theorem foldl_toBlankObjStep_gopd (src : PropList) (names : List String)
    (hsub : ∀ k ∈ names, k ∈ getOwnPropertyNames src) (acc : PropList) (n : String) :
    getOwnPropertyDescriptor (names.foldl (toBlankObjStep src) acc) n =
      if n ∈ names then
        (getOwnPropertyDescriptor src n).map (fun d0 => { d0 with enumerable := true })
      else getOwnPropertyDescriptor acc n := by
  induction names generalizing acc with
  | nil => simp
  | cons k rest ih =>
    have hk : k ∈ getOwnPropertyNames src := hsub k (List.mem_cons_self k rest)
    obtain ⟨d, hd⟩ := Option.isSome_iff_exists.mp ((gopd_isSome_iff src k).mpr hk)
    have hstep : toBlankObjStep src acc k =
        defineProperty acc k { d with enumerable := true } := by
      simp [toBlankObjStep, hd]
    rw [List.foldl_cons, hstep,
      ih (fun x hx => hsub x (List.mem_cons_of_mem k hx)) (defineProperty acc k _)]
    by_cases hn : n ∈ rest
    · simp [hn]
    · by_cases hnk : n = k
      · subst hnk
        simp [hn, gopd_defineProperty_self, hd]
      · simp [hn, hnk, gopd_defineProperty_ne acc k _ n hnk]

theorem toBlankObjProps_gopd (src : PropList) (n : String) :
    getOwnPropertyDescriptor (toBlankObjProps src) n =
      if n ∈ getOwnPrototypeNames src then
        (getOwnPropertyDescriptor src n).map (fun d0 => { d0 with enumerable := true })
      else none := by
  unfold toBlankObjProps
  rw [foldl_toBlankObjStep_gopd src (getOwnPrototypeNames src)
    (fun k hk => (List.mem_filter.mp hk).1) [] n, gopd_nil]

theorem mem_getOwnPrototypeNames_iff (src : PropList) (n : String) :
    n ∈ getOwnPrototypeNames src ↔
      n ∈ getOwnPropertyNames src ∧ n ∉ NATIVE_PROPS_NON_ENUMERABLE := by
  rw [getOwnPrototypeNames, List.mem_filter, nameIsNotNative_iff]

theorem mem_toBlankObjProps_iff (src : PropList) (n : String) :
    n ∈ getOwnPropertyNames (toBlankObjProps src) ↔
      n ∈ getOwnPropertyNames src ∧ n ∉ NATIVE_PROPS_NON_ENUMERABLE := by
  rw [← gopd_isSome_iff, toBlankObjProps_gopd, ← mem_getOwnPrototypeNames_iff]
  by_cases h : n ∈ getOwnPrototypeNames src
  · have hmem : n ∈ getOwnPropertyNames src := (List.mem_filter.mp h).1
    simp [h, (gopd_isSome_iff src n).mpr hmem]
  · simp [h]

/-! ## Helper lemmas about `toBlankObj` and `thisless` -/

theorem toBlankObj_ok_iff (v : JsVal) (r : JsVal) :
    toBlankObj v = .ok r ↔
      ∃ ps, ownPropsOf v = .ok ps ∧ r = .objV .pnull (toBlankObjProps ps) := by
  unfold toBlankObj
  cases hv : ownPropsOf v with
  | ok ps => simp [Except.map, eq_comm]
  | error e => simp [Except.map]

theorem isPlainObject_blank (ps : PropList) :
    isPlainObject (.objV .pnull ps) = true := by
  simp [isPlainObject]

theorem thisless_of_plain (v : JsVal) (h : isPlainObject v = true) :
    thisless v = .ok v := by
  simp [thisless, h]

/-! ## Lemmas about the heap embedding -/

theorem getElem?_append_singleton_ne {α : Type} (l : List α) (x : α) (c : Nat)
    (h : c ≠ l.length) : (l ++ [x])[c]? = l[c]? := by
  rcases Nat.lt_or_ge c l.length with hlt | hge
  · rw [List.getElem?_append]
    simp [hlt]
  · have hgt : l.length < c := Nat.lt_of_le_of_ne hge (Ne.symm h)
    rw [List.getElem?_eq_none (by simpa using Nat.succ_le_of_lt hgt),
      List.getElem?_eq_none (Nat.le_of_lt hgt)]

theorem lt_length_of_getElem?_eq_some {α : Type} (l : List α) (i : Nat) (x : α)
    (h : l[i]? = some x) : i < l.length := by
  by_contra hc
  rw [List.getElem?_eq_none (Nat.le_of_not_lt hc)] at h
  cases h

theorem foldl_toBlankObjStepH (a b : Nat) (hab : a ≠ b) (src : HObj)
    (names : List String)
    (hsub : ∀ k ∈ names, k ∈ getOwnPropertyNames src.props) (bo : HObj)
    (hh : Heap) (ha : hh[a]? = some src) (hb : hh[b]? = some bo) :
    (∀ c, c ≠ b → (names.foldl (toBlankObjStepH a b) hh)[c]? = hh[c]?) ∧
    (names.foldl (toBlankObjStepH a b) hh)[b]? =
      some ⟨bo.proto, names.foldl (toBlankObjStep src.props) bo.props⟩ := by
  induction names generalizing hh bo with
  | nil =>
    obtain ⟨bp, bps⟩ := bo
    exact ⟨fun c _ => rfl, hb⟩
  | cons k rest ih =>
    have hk : k ∈ getOwnPropertyNames src.props := hsub k (List.mem_cons_self k rest)
    obtain ⟨d, hd⟩ := Option.isSome_iff_exists.mp ((gopd_isSome_iff src.props k).mpr hk)
    have hblt : b < hh.length := lt_length_of_getElem?_eq_some hh b bo hb
    have hstep : toBlankObjStepH a b hh k =
        hh.set b ⟨bo.proto, defineProperty bo.props k { d with enumerable := true }⟩ := by
      simp [toBlankObjStepH, ha, hd, definePropertyH, hb]
    have ha1 : (hh.set b ⟨bo.proto,
        defineProperty bo.props k { d with enumerable := true }⟩)[a]? = some src := by
      rw [List.getElem?_set_ne (Ne.symm hab)]
      exact ha
    have hb1 : (hh.set b ⟨bo.proto,
        defineProperty bo.props k { d with enumerable := true }⟩)[b]? =
        some ⟨bo.proto, defineProperty bo.props k { d with enumerable := true }⟩ :=
      List.getElem?_set_eq_of_lt _ hblt
    obtain ⟨hframe, hfin⟩ := ih (fun x hx => hsub x (List.mem_cons_of_mem k hx))
      ⟨bo.proto, defineProperty bo.props k { d with enumerable := true }⟩ _ ha1 hb1
    constructor
    · intro c hc
      rw [List.foldl_cons, hstep, hframe c hc, List.getElem?_set_ne (Ne.symm hc)]
    · rw [List.foldl_cons, hstep, hfin, List.foldl_cons]
      simp [toBlankObjStep, hd]

/-- C7: for every input object, `toBlankObj` does not mutate it: the
object at the source address (with its full descriptors) is the same
after the call as before it; only the freshly allocated address `b`
(which did not exist in the pre-heap) differs, and it holds the
flattened record. -/
theorem toBlankObjH_no_mutation (h : Heap) (a : Nat) (h' : Heap) (b : Nat)
    (hrun : toBlankObjH h a = .ok (h', b)) :
    h'[a]? = h[a]? ∧ b = h.length ∧ (∀ c, c ≠ b → h'[c]? = h[c]?) ∧
    ∃ src, h[a]? = some src ∧
      h'[b]? = some ⟨Proto.pnull, toBlankObjProps src.props⟩ := by
  unfold toBlankObjH at hrun
  cases hsrc : h[a]? with
  | none => rw [hsrc] at hrun; cases hrun
  | some src =>
    rw [hsrc] at hrun
    simp only [alloc, Except.ok.injEq, Prod.mk.injEq] at hrun
    obtain ⟨hh', hbeq⟩ := hrun
    have halt : a < h.length := lt_length_of_getElem?_eq_some h a src hsrc
    have hab : a ≠ h.length := Nat.ne_of_lt halt
    have ha1 : (h ++ [(⟨Proto.pnull, []⟩ : HObj)])[a]? = some src := by
      rw [List.getElem?_append]
      simp [halt, hsrc]
    have hb1 : (h ++ [(⟨Proto.pnull, []⟩ : HObj)])[h.length]? =
        some ⟨Proto.pnull, []⟩ := List.getElem?_concat_length h _
    obtain ⟨hframe, hfin⟩ := foldl_toBlankObjStepH a h.length hab src
      (getOwnPrototypeNames src.props) (fun k hk => (List.mem_filter.mp hk).1)
      ⟨Proto.pnull, []⟩ (h ++ [⟨Proto.pnull, []⟩]) ha1 hb1
    subst hh' hbeq
    refine ⟨?_, rfl, ?_, src, rfl, ?_⟩
    · rw [hframe a hab, ha1]
    · intro c hc
      rw [hframe c hc, getElem?_append_singleton_ne h _ c hc]
    · exact hfin

/-! ## Claim theorems -/

/-- C1: for every object `obj`, `toBlankObj(obj)` returns a freshly
created prototype-less record whose own (all enumerable) properties
are exactly the own property names of `obj` minus
`NATIVE_PROPS_NON_ENUMERABLE`, each carrying `obj`'s original
property descriptor with only the `enumerable` flag changed to
`true` (value, getter, setter, writable and configurable
unchanged). -/
theorem toBlankObj_flat_record_spec (v : JsVal) (ps : PropList)
    (hv : ownPropsOf v = .ok ps) :
    toBlankObj v = .ok (.objV .pnull (toBlankObjProps ps)) ∧
    (∀ n, n ∈ getOwnPropertyNames (toBlankObjProps ps) ↔
        n ∈ getOwnPropertyNames ps ∧ n ∉ NATIVE_PROPS_NON_ENUMERABLE) ∧
    (∀ n d, getOwnPropertyDescriptor (toBlankObjProps ps) n = some d →
        d.enumerable = true ∧
        ∃ d0, getOwnPropertyDescriptor ps n = some d0 ∧
          d = { d0 with enumerable := true } ∧
          d.value = d0.value ∧ d.get = d0.get ∧ d.set = d0.set ∧
          d.writable = d0.writable ∧ d.configurable = d0.configurable) ∧
    (∀ n d0, getOwnPropertyDescriptor ps n = some d0 →
        n ∉ NATIVE_PROPS_NON_ENUMERABLE →
        getOwnPropertyDescriptor (toBlankObjProps ps) n =
          some { d0 with enumerable := true }) := by
  refine ⟨?_, fun n => mem_toBlankObjProps_iff ps n, ?_, ?_⟩
  · rw [toBlankObj_ok_iff]
    exact ⟨ps, hv, rfl⟩
  · intro n d hd
    rw [toBlankObjProps_gopd] at hd
    by_cases hmem : n ∈ getOwnPrototypeNames ps
    · rw [if_pos hmem] at hd
      cases h0 : getOwnPropertyDescriptor ps n with
      | none => rw [h0] at hd; cases hd
      | some d0 =>
        rw [h0] at hd
        simp only [Option.map_some', Option.some.injEq] at hd
        subst hd
        exact ⟨rfl, d0, rfl, rfl, rfl, rfl, rfl, rfl, rfl⟩
    · rw [if_neg hmem] at hd; cases hd
  · intro n d0 h0 hnn
    have hmem : n ∈ getOwnPrototypeNames ps :=
      (mem_getOwnPrototypeNames_iff ps n).mpr
        ⟨(gopd_isSome_iff ps n).mp (by simp [h0]), hnn⟩
    rw [toBlankObjProps_gopd, if_pos hmem, h0, Option.map_some']

/-- C1 witness: a concrete object with a getter-style property and an
own `toString` property, flattened. -/
theorem toBlankObj_flat_record_spec_witness :
    ownPropsOf (.objV (.other 0)
        [("aboot", { get := some (.funcV 7 []), configurable := true }),
         ("toString", { value := some (.funcV 8 []), writable := true })]) =
      .ok [("aboot", { get := some (.funcV 7 []), configurable := true }),
           ("toString", { value := some (.funcV 8 []), writable := true })] ∧
    toBlankObj (.objV (.other 0)
        [("aboot", { get := some (.funcV 7 []), configurable := true }),
         ("toString", { value := some (.funcV 8 []), writable := true })]) =
      .ok (.objV .pnull (toBlankObjProps
        [("aboot", { get := some (.funcV 7 []), configurable := true }),
         ("toString", { value := some (.funcV 8 []), writable := true })])) :=
  ⟨rfl, (toBlankObj_flat_record_spec (.objV (.other 0)
        [("aboot", { get := some (.funcV 7 []), configurable := true }),
         ("toString", { value := some (.funcV 8 []), writable := true })])
        [("aboot", { get := some (.funcV 7 []), configurable := true }),
         ("toString", { value := some (.funcV 8 []), writable := true })] rfl).1⟩

/-- C2: for every name in `NATIVE_PROPS_NON_ENUMERABLE` and every
input object, the flattened record never has that name as an own
property, even when the input defines it as an own property. -/
theorem toBlankObj_native_exclusion (v : JsVal) (ps : PropList) (n : String)
    (hv : ownPropsOf v = .ok ps) (hn : n ∈ NATIVE_PROPS_NON_ENUMERABLE) :
    toBlankObj v = .ok (.objV .pnull (toBlankObjProps ps)) ∧
    n ∉ getOwnPropertyNames (toBlankObjProps ps) ∧
    getOwnPropertyDescriptor (toBlankObjProps ps) n = none := by
  refine ⟨?_, ?_, ?_⟩
  · rw [toBlankObj_ok_iff]
    exact ⟨ps, hv, rfl⟩
  · rw [mem_toBlankObjProps_iff]
    rintro ⟨-, hnot⟩
    exact hnot hn
  · have hnotmem : ¬ n ∈ getOwnPrototypeNames ps := fun hmem =>
      ((mem_getOwnPrototypeNames_iff ps n).mp hmem).2 hn
    rw [toBlankObjProps_gopd, if_neg hnotmem]

/-- C2 witness: an object that defines `toString` as an own property
still loses it in the flattened record. -/
theorem toBlankObj_native_exclusion_witness :
    ownPropsOf (.objV .objectProto
        [("toString", { value := some (.funcV 3 []), writable := true })]) =
      .ok [("toString", { value := some (.funcV 3 []), writable := true })] ∧
    "toString" ∈ NATIVE_PROPS_NON_ENUMERABLE ∧
    (toBlankObj (.objV .objectProto
        [("toString", { value := some (.funcV 3 []), writable := true })]) =
        .ok (.objV .pnull (toBlankObjProps
          [("toString", { value := some (.funcV 3 []), writable := true })])) ∧
      "toString" ∉ getOwnPropertyNames (toBlankObjProps
          [("toString", { value := some (.funcV 3 []), writable := true })]) ∧
      getOwnPropertyDescriptor (toBlankObjProps
          [("toString", { value := some (.funcV 3 []), writable := true })])
        "toString" = none) :=
  ⟨rfl, by decide, toBlankObj_native_exclusion _ _ "toString" rfl (by decide)⟩

/-- C3: for every provider `fn` and context `c`, the eager call
`selfless(fn, c)` and the curried call `selfless(fn)(c)` produce the
same result (hence the same own enumerable keys and descriptor
shapes). -/
theorem selfless_currying_equivalence (fn : JsVal → JsVal) (c : JsVal) :
    (selfless (.one fn)).resolve c = (selfless (.two fn c)).resolve c ∧
    selfless (.two fn c) = .result (thisless (fn c)) ∧
    ∃ g, selfless (.one fn) = .curried g ∧ g c = thisless (fn c) :=
  ⟨rfl, rfl, ⟨fun s => thisless (fn s), rfl, rfl⟩⟩

/-- C4: for every value `v` with `isPlainObject v`, `thisless v`
returns `v` itself, unchanged. -/
theorem thisless_plain_identity (v : JsVal) (h : isPlainObject v = true) :
    thisless v = .ok v :=
  thisless_of_plain v h

/-- C4 witness. -/
theorem thisless_plain_identity_witness :
    isPlainObject (.objV .objectProto []) = true ∧
    thisless (.objV .objectProto []) = .ok (.objV .objectProto []) :=
  ⟨rfl, thisless_plain_identity (.objV .objectProto []) rfl⟩

/-- C5 counterexample: `thisless` on a plain object whose prototype is
`Object.prototype` returns it unchanged, so the result of `thisless`
does have a prototype — the claim "for every input, the result of
thisless has no prototype" fails at this input. -/
theorem thisless_keeps_proto_cex :
    thisless (.objV .objectProto []) = .ok (.objV .objectProto []) ∧
    (JsVal.objV .objectProto []).protoClass = some Proto.objectProto ∧
    Proto.objectProto ≠ Proto.pnull :=
  ⟨rfl, rfl, by decide⟩

/-- C5 amended: the result of `toBlankObj` always has no prototype;
the result of `thisless` has no prototype whenever the input was not
already a plain object (a plain input is returned unchanged and may
keep `Object.prototype`); in every case the result is a non-function
object, so using it as a constructor fails with a type error. -/
theorem flatten_protoless_unconstructible (v r : JsVal) :
    (toBlankObj v = .ok r →
      r.protoClass = some Proto.pnull ∧ construct r = .error .typeError) ∧
    (thisless v = .ok r →
      construct r = .error .typeError ∧
      (isPlainObject v = false → r.protoClass = some Proto.pnull)) := by
  have key : ∀ u : JsVal, toBlankObj v = .ok u →
      u.protoClass = some Proto.pnull ∧ construct u = .error .typeError := by
    intro u hu
    obtain ⟨ps, -, rfl⟩ := (toBlankObj_ok_iff v u).mp hu
    exact ⟨rfl, rfl⟩
  refine ⟨key r, ?_⟩
  intro hr
  unfold thisless at hr
  by_cases hp : isPlainObject v
  · rw [if_pos hp] at hr
    injection hr with hr'
    subst hr'
    cases v with
    | objV proto ps => exact ⟨rfl, fun hfalse => by rw [hp] at hfalse; cases hfalse⟩
    | undefV => simp [isPlainObject] at hp
    | nullV => simp [isPlainObject] at hp
    | prim t => simp [isPlainObject] at hp
    | funcV t ps => simp [isPlainObject] at hp
  · rw [if_neg hp] at hr
    obtain ⟨ps, -, rfl⟩ := (toBlankObj_ok_iff _ r).mp hr
    exact ⟨rfl, fun _ => rfl⟩

/-- C5 amended witness: flattening a class-prototype-like object gives
a prototype-less, unconstructible record. -/
theorem flatten_protoless_unconstructible_witness :
    toBlankObj (.objV (.other 0) []) = .ok (.objV .pnull []) ∧
    (JsVal.objV .pnull []).protoClass = some Proto.pnull ∧
    construct (.objV .pnull []) = .error .typeError :=
  ⟨rfl,
   ((flatten_protoless_unconstructible (.objV (.other 0) []) (.objV .pnull [])).1 rfl).1,
   ((flatten_protoless_unconstructible (.objV (.other 0) []) (.objV .pnull [])).1 rfl).2⟩

/-- C6: in a resolved `selfless` call, the provider is invoked exactly
once (the final state is the state after a single provider call, and
an instrumented call counter ends at exactly one), and an error
thrown by the provider propagates unchanged, with no catching or
wrapping. -/
theorem selfless_once_and_error_propagation {σ : Type}
    (prov : σ → JsVal → σ × Except JsErr JsVal) (s : σ) (c : JsVal)
    (f : JsVal → Except JsErr JsVal) (n : Nat) :
    (selflessSt prov s c).1 = (prov s c).1 ∧
    (selflessSt (countingProvider f) n c).1 = n + 1 ∧
    (∀ s1 e, prov s c = (s1, .error e) → selflessSt prov s c = (s1, .error e)) := by
  refine ⟨?_, ?_, ?_⟩
  · rcases hp : prov s c with ⟨s1, r⟩
    cases r <;> simp [selflessSt, hp]
  · cases hf : f c <;> simp [selflessSt, countingProvider, hf]
  · intro s1 e hp
    simp [selflessSt, hp]

/-- C6 witness: an always-throwing provider is called exactly once and
its error comes back unchanged. -/
theorem selfless_once_and_error_propagation_witness :
    (selflessSt (countingProvider
        fun _ => (Except.error JsErr.typeError : Except JsErr JsVal)) 0 .undefV).1 = 1 ∧
    selflessSt (fun (s : Unit) (_ : JsVal) =>
        (s, (Except.error JsErr.typeError : Except JsErr JsVal))) () .undefV =
      ((), Except.error JsErr.typeError) :=
  ⟨(selfless_once_and_error_propagation
      (fun (s : Unit) (_ : JsVal) => (s, (Except.error JsErr.typeError : Except JsErr JsVal)))
      () .undefV (fun _ => (Except.error JsErr.typeError : Except JsErr JsVal)) 0).2.1,
   (selfless_once_and_error_propagation
      (fun (s : Unit) (_ : JsVal) => (s, (Except.error JsErr.typeError : Except JsErr JsVal)))
      () .undefV (fun _ => (Except.error JsErr.typeError : Except JsErr JsVal)) 0).2.2
      () JsErr.typeError rfl⟩

/-- C7 witness: a one-object heap, flattened; the source object at
address 0 is untouched. -/
theorem toBlankObjH_no_mutation_witness :
    toBlankObjH
      [⟨Proto.objectProto,
        [("moose", { value := some (.prim 5), writable := true, configurable := true })]⟩] 0 =
      .ok ([⟨Proto.objectProto,
        [("moose", { value := some (.prim 5), writable := true, configurable := true })]⟩,
        ⟨Proto.pnull,
          [("moose", { value := some (.prim 5), writable := true,
                       enumerable := true, configurable := true })]⟩], 1) ∧
    ([⟨Proto.objectProto,
        [("moose", { value := some (.prim 5), writable := true, configurable := true })]⟩,
      ⟨Proto.pnull,
        [("moose", { value := some (.prim 5), writable := true,
                     enumerable := true, configurable := true })]⟩] : Heap)[0]? =
      ([⟨Proto.objectProto,
        [("moose", { value := some (.prim 5), writable := true, configurable := true })]⟩] :
        Heap)[0]? :=
  ⟨rfl,
   (toBlankObjH_no_mutation
     [⟨Proto.objectProto,
       [("moose", { value := some (.prim 5), writable := true, configurable := true })]⟩] 0
     [⟨Proto.objectProto,
       [("moose", { value := some (.prim 5), writable := true, configurable := true })]⟩,
      ⟨Proto.pnull,
        [("moose", { value := some (.prim 5), writable := true,
                     enumerable := true, configurable := true })]⟩] 1 rfl).1⟩

/-- C8: applying the integration patch twice leaves the target exactly
as after one application; starting from the unpatched state, the
entry points end up wrapped exactly once, and each call of a wrapped
entry point invokes the library's underlying original exactly once. -/
theorem hackObjectTypePrototype_idempotent (p : ObjectTypeProto) :
    hackObjectTypePrototype (hackObjectTypePrototype p) = hackObjectTypePrototype p ∧
    (p.createStore = false →
      hackObjectTypePrototype (hackObjectTypePrototype p) =
        ⟨.wrapped p.actions, .wrapped p.views, true⟩ ∧
      ∀ a w, p.actions = .orig a → p.views = .orig w →
        (hackObjectTypePrototype (hackObjectTypePrototype p)).actions.wrapLayers = 1 ∧
        (hackObjectTypePrototype (hackObjectTypePrototype p)).views.wrapLayers = 1 ∧
        (hackObjectTypePrototype (hackObjectTypePrototype p)).actions.origCallsPerCall = 1 ∧
        (hackObjectTypePrototype (hackObjectTypePrototype p)).views.origCallsPerCall = 1) := by
  constructor
  · unfold hackObjectTypePrototype
    by_cases hc : p.createStore <;> simp [hc]
  · intro hcs
    have h1 : hackObjectTypePrototype p = ⟨.wrapped p.actions, .wrapped p.views, true⟩ := by
      simp [hackObjectTypePrototype, hcs]
    have h2 : hackObjectTypePrototype (hackObjectTypePrototype p) =
        ⟨.wrapped p.actions, .wrapped p.views, true⟩ := by
      rw [h1]
      simp [hackObjectTypePrototype]
    refine ⟨h2, ?_⟩
    intro a w ha hw
    rw [h2, ha, hw]
    exact ⟨rfl, rfl, rfl, rfl⟩

/-- C8 witness: the unpatched prototype, patched twice. -/
theorem hackObjectTypePrototype_idempotent_witness :
    (⟨Method.orig 0, Method.orig 1, false⟩ : ObjectTypeProto).createStore = false ∧
    hackObjectTypePrototype (hackObjectTypePrototype ⟨.orig 0, .orig 1, false⟩) =
      hackObjectTypePrototype ⟨.orig 0, .orig 1, false⟩ ∧
    (hackObjectTypePrototype
      (hackObjectTypePrototype ⟨.orig 0, .orig 1, false⟩)).actions.wrapLayers = 1 ∧
    (hackObjectTypePrototype
      (hackObjectTypePrototype ⟨.orig 0, .orig 1, false⟩)).actions.origCallsPerCall = 1 :=
  ⟨rfl,
   (hackObjectTypePrototype_idempotent ⟨.orig 0, .orig 1, false⟩).1,
   (((hackObjectTypePrototype_idempotent ⟨.orig 0, .orig 1, false⟩).2 rfl).2 0 1 rfl rfl).1,
   (((hackObjectTypePrototype_idempotent ⟨.orig 0, .orig 1, false⟩).2 rfl).2 0 1 rfl rfl).2.2.1⟩

/-- C9: every record produced by `toBlankObj` satisfies
`isPlainObject` (its prototype is `null`), so `thisless` returns it
unchanged; and `thisless` is idempotent on every input it accepts. -/
theorem thisless_idempotent (v r x y : JsVal) :
    (toBlankObj v = .ok r → isPlainObject r = true ∧ thisless r = .ok r) ∧
    (thisless x = .ok y → thisless y = .ok y) := by
  have key : ∀ w u : JsVal, toBlankObj w = .ok u →
      isPlainObject u = true ∧ thisless u = .ok u := by
    intro w u hu
    obtain ⟨ps, -, rfl⟩ := (toBlankObj_ok_iff w u).mp hu
    exact ⟨isPlainObject_blank _, thisless_of_plain _ (isPlainObject_blank _)⟩
  refine ⟨key v r, ?_⟩
  intro hx
  unfold thisless at hx
  by_cases hp : isPlainObject x
  · rw [if_pos hp] at hx
    injection hx with hx'
    subst hx'
    exact thisless_of_plain x hp
  · rw [if_neg hp] at hx
    exact (key _ y hx).2

/-- C9 witness. -/
theorem thisless_idempotent_witness :
    toBlankObj (.objV (.other 0) []) = .ok (.objV .pnull []) ∧
    isPlainObject (.objV .pnull []) = true ∧
    thisless (.objV .pnull []) = .ok (.objV .pnull []) ∧
    thisless (.objV .objectProto []) = .ok (.objV .objectProto []) :=
  ⟨rfl,
   ((thisless_idempotent (.objV (.other 0) []) (.objV .pnull [])
      (.objV .objectProto []) (.objV .objectProto [])).1 rfl).1,
   ((thisless_idempotent (.objV (.other 0) []) (.objV .pnull [])
      (.objV .objectProto []) (.objV .objectProto [])).1 rfl).2,
   (thisless_idempotent (.objV (.other 0) []) (.objV .pnull [])
      (.objV .objectProto []) (.objV .objectProto [])).2 rfl⟩

/-- C10: `selfless` dispatches on argument count, not argument value:
a two-argument call with `undefined` as second argument takes the
eager branch, invoking the provider on `undefined` immediately; only
the one-argument call returns the curried closure. -/
theorem selfless_arity_dispatch (fn : JsVal → JsVal) :
    selfless (.two fn .undefV) = .result (thisless (fn .undefV)) ∧
    ∃ g, selfless (.one fn) = .curried g ∧ ∀ c, g c = thisless (fn c) :=
  ⟨rfl, ⟨fun s => thisless (fn s), rfl, fun _ => rfl⟩⟩

end Thisless

